import Mathlib

/-!
Verification of the password-strength core of the Password Strength Lab
repository. The definitions below are a shallow embedding of the
TypeScript source: `scorePassword`, `meterPercentFromGuessesLog10`,
`strengthFromScore`, `varietyLabel` from client/src/App.tsx and
`formatDuration` from the earlier App.tsx drafts. JavaScript numbers are
modelled by the rationals, `Math.round` by `jsRound`, the JS string
truthiness of `a || b` by `jsOrStr` / `jsOrOpt`, and the external zxcvbn
call by an oracle parameter of type `String → ZxcvbnResult`.
-/

namespace PasswordMeter

/-! ### Character classes and variety

Embedding of the regex tests `/[a-z]/ /[A-Z]/ /[0-9]/ /[^a-zA-Z0-9]/`
used in `scorePassword`. A password is modelled as its list of
characters; each regex `.test` is an existential scan over them. -/

def isLowerAZ (c : Char) : Bool := 'a' ≤ c && c ≤ 'z'

def isUpperAZ (c : Char) : Bool := 'A' ≤ c && c ≤ 'Z'

def isDigit09 (c : Char) : Bool := '0' ≤ c && c ≤ '9'

def isOtherChar (c : Char) : Bool := !(isLowerAZ c || isUpperAZ c || isDigit09 c)

def testLower (p : List Char) : Bool := p.any isLowerAZ

def testUpper (p : List Char) : Bool := p.any isUpperAZ

def testDigit (p : List Char) : Bool := p.any isDigit09

def testOther (p : List Char) : Bool := p.any isOtherChar

/-- The array of the four regex tests of App.tsx line 61. -/
def varietyTests : List (List Char → Bool) := [testLower, testUpper, testDigit, testOther]

/-- `[/[a-z]/, /[A-Z]/, /[0-9]/, /[^a-zA-Z0-9]/].filter((regex) => regex.test(password)).length` -/
def variety (p : List Char) : Nat := (varietyTests.filter (fun t => t p)).length

/-! ### Numeric helpers -/

/-- `function clamp (n, min, max) { return Math.min(Math.max(n, min), max); }` -/
def clamp (n lo hi : ℚ) : ℚ := min (max n lo) hi

/-- JavaScript `Math.round`: round half toward positive infinity. -/
def jsRound (q : ℚ) : ℤ := ⌊q + 1/2⌋

/-- Round half away from zero, the rounding named by the specification. -/
def roundHalfAwayFromZero (q : ℚ) : ℤ := if 0 ≤ q then ⌊q + 1/2⌋ else -⌊-q + 1/2⌋

/-- `const LOG2_10 = Math.LN10 / Math.LN2;` — the code's double constant for
log₂ 10, modelled by the rational literal that an earlier draft of the same
line spells out (`3.32192809489`). -/
def LOG2_10 : ℚ := 3.32192809489

/-- `meterPercentFromGuessesLog10` of App.tsx lines 49–57: window `[2, 18]`,
ease-out quadratic, scaled to percent. The returned value is `eased * 100`
itself; the code performs no rounding on it. -/
def meterPercentFromGuessesLog10 (guessesLog10 : ℚ) : ℚ :=
  let mi : ℚ := 2
  let ma : ℚ := 18
  let t := clamp ((guessesLog10 - mi) / (ma - mi)) 0 1
  let eased := 1 - (1 - t) ^ 2
  eased * 100

/-! ### Tier table and labels -/

structure Level where
  score : Int
  label : String
  color : String
deriving DecidableEq

instance : Inhabited Level := ⟨⟨0, "Very weak", "#ef4444"⟩⟩

/-- `const LEVELS = [...]` of App.tsx lines 26–32. -/
def LEVELS : List Level :=
  [⟨0, "Very weak", "#ef4444"⟩,
   ⟨1, "Weak", "#f97316"⟩,
   ⟨2, "Okay", "#f59e0b"⟩,
   ⟨3, "Strong", "#10b981"⟩,
   ⟨4, "Excellent", "#14b8a6"⟩]

/-- `LEVELS.find((level) => level.score === score) ?? LEVELS[0]` -/
def strengthFromScore (score : Int) : Level :=
  (LEVELS.find? (fun level => level.score == score)).getD LEVELS.headI

/-- `const map = ['just one type', 'two types', 'three types', 'four types'];` -/
def varietyMap : List String := ["just one type", "two types", "three types", "four types"]

/-- JavaScript array indexing `l[i]`: `undefined` (here `none`) for a
negative or out-of-range index. -/
def jsIndex (l : List String) (i : Int) : Option String :=
  if 0 ≤ i then l[i.toNat]? else none

/-- `varietyLabel` of App.tsx lines 40–43: `map[variety - 1] ?? 'no variety yet'`. -/
def varietyLabel (variety : Int) : String :=
  (jsIndex varietyMap (variety - 1)).getD "no variety yet"

/-! ### The oracle boundary and the estimator -/

/-- The `feedback` field of a zxcvbn result: a warning string (possibly
empty) and an ordered list of suggestion strings. -/
structure Feedback where
  warning : String
  suggestions : List String
deriving DecidableEq

/-- The fields of the zxcvbn result that `scorePassword` reads. The seconds
and display values are those of the one scenario the code selects
(`offline_fast_hashing_1e10_per_second`). -/
structure ZxcvbnResult where
  guesses_log10 : ℚ
  crack_seconds : ℚ
  crack_display : String
  score : Int
  feedback : Feedback

/-- The `Estimate` interface of App.tsx lines 4–12. -/
structure Estimate where
  entropy : Int
  crackSeconds : ℚ
  crackTime : String
  suggestion : String
  variety : Nat
  score : Int
  meterPercent : ℚ

/-- JS `a || b` on strings: the empty string is falsy. -/
def jsOrStr (a b : String) : String := if a = "" then b else a

/-- JS `arr[0] || b`: `undefined` (a missing head) and the empty string are
both falsy. -/
def jsOrOpt (a : Option String) (b : String) : String :=
  match a with
  | none => b
  | some s => if s = "" then b else s

/-- `scorePassword` of App.tsx lines 59–81, with the zxcvbn call abstracted
into an `oracle` parameter. -/
def scorePassword (oracle : String → ZxcvbnResult) (password : String) : Estimate :=
  let result := oracle password
  { entropy := max 0 (jsRound (result.guesses_log10 * LOG2_10))
    crackSeconds := result.crack_seconds
    crackTime := result.crack_display
    suggestion :=
      if password.length = 0 then "Type a password to see how strong it is!"
      else jsOrStr result.feedback.warning
        (jsOrOpt result.feedback.suggestions.head? "Nice job! This looks strong.")
    variety := variety password.data
    score := result.score
    meterPercent := meterPercentFromGuessesLog10 result.guesses_log10 }

/-! ### Duration formatting (formatDuration of the App.tsx drafts) -/

/-- A JavaScript number as `formatDuration` distinguishes them: a finite
value, or one of the non-finite values that fail `isFinite`. -/
inductive JSNumber where
  | finite (q : ℚ)
  | posInf
  | negInf
  | nan
deriving DecidableEq

/-- The `units` ladder of `formatDuration`. -/
def durationUnits : List (ℚ × String) :=
  [(60, "second"), (60, "minute"), (24, "hour"), (365, "day"), (100, "year")]

/-- The `for (const [step, name] of units)` loop of `formatDuration`:
either break at the first step the value is below, or divide and continue,
updating the unit name each iteration. -/
def durationLoop : List (ℚ × String) → ℚ → String → ℚ × String
  | [], value, unit => (value, unit)
  | (step, name) :: rest, value, _ =>
    if value < step then (value, name)
    else durationLoop rest (value / step) name

/-- JS template interpolation of the `rounded` number, whose denominator is
always 1 or 10 here: an integer prints bare, otherwise one decimal digit. -/
def showRat (q : ℚ) : String :=
  if q.den = 1 then toString q.num
  else toString (q.num / (q.den : Int)) ++ "." ++ toString ((q.num * 10 / (q.den : Int)) % 10)

/-- `formatDuration` of the App.tsx drafts (part_002 lines 65–89):
non-finite or non-positive input short-circuits to "almost instantly";
otherwise walk the unit ladder, round, and pluralize unless the rounded
value is exactly 1. -/
def formatDuration (seconds : JSNumber) : String :=
  match seconds with
  | .finite s =>
    if s ≤ 0 then "almost instantly"
    else
      let vu := durationLoop durationUnits s "second"
      let rounded : ℚ :=
        if vu.1 < 10 then ((jsRound (vu.1 * 10) : ℚ) / 10) else ((jsRound vu.1 : Int) : ℚ)
      let suffix := if rounded = 1 then "" else "s"
      showRat rounded ++ " " ++ vu.2 ++ suffix
  | _ => "almost instantly"

/-! ### Spec-side definitions for the suggestion-priority claim -/

/-- The suggestion priority exactly as the specification words it: the
warning if non-empty, else the first entry of the suggestions if present,
else the fixed fallback. Written from the spec to compare with
`scorePassword`. -/
def specSuggestionPriority (fb : Feedback) : String :=
  if fb.warning ≠ "" then fb.warning
  else
    match fb.suggestions with
    | s :: _ => s
    | [] => "Nice job! This looks strong."

/-- The amended suggestion priority: the warning if non-empty, else the
first entry of the suggestions if present and non-empty, else the fixed
fallback. -/
def amendedSuggestionPriority (fb : Feedback) : String :=
  if fb.warning ≠ "" then fb.warning
  else
    match fb.suggestions with
    | s :: _ => if s ≠ "" then s else "Nice job! This looks strong."
    | [] => "Nice job! This looks strong."

/-! ### Concrete oracles used by witnesses and counterexamples -/

/-- An oracle returning the zxcvbn result for the empty password:
`guesses = 1`, hence `guesses_log10 = 0`. -/
def zeroOracle : String → ZxcvbnResult := fun _ => ⟨0, 0, "less than a second", 0, ⟨"", []⟩⟩

/-- A small concrete oracle with `guesses_log10 = 3`. -/
def cOracle : String → ZxcvbnResult := fun _ => ⟨3, 1000, "17 minutes", 1, ⟨"", []⟩⟩

/-- An oracle whose feedback has an empty warning and a present but empty
first suggestion. -/
def cexOracle : String → ZxcvbnResult := fun _ => ⟨1, 1, "instant", 0, ⟨"", [""]⟩⟩

/-! ### Helper lemmas -/

theorem filter_length_mono {α : Type} (l : List (α → Bool)) (a b : α)
    (h : ∀ t ∈ l, t a = true → t b = true) :
    (l.filter (fun t => t a)).length ≤ (l.filter (fun t => t b)).length := by
  induction l with
  | nil => simp
  | cons t rest ih =>
    have hrest : (rest.filter (fun t => t a)).length ≤ (rest.filter (fun t => t b)).length :=
      ih fun t' ht' => h t' (List.mem_cons_of_mem _ ht')
    rcases hta : t a with _ | _
    · rcases htb : t b with _ | _
      · simpa [List.filter_cons, hta, htb] using hrest
      · simp only [List.filter_cons, hta, htb]
        exact Nat.le_succ_of_le hrest
    · have htb : t b = true := h t (List.mem_cons_self _ _) hta
      simp only [List.filter_cons, hta, htb]
      exact Nat.succ_le_succ hrest

theorem easeOutScaled_mono {a b : ℚ} (hab : a ≤ b) (hb : b ≤ 1) :
    (1 - (1 - a) ^ 2) * 100 ≤ (1 - (1 - b) ^ 2) * 100 := by
  nlinarith [mul_nonneg (sub_nonneg.2 hab) (by linarith : (0:ℚ) ≤ 2 - a - b)]

/-! ### Claim theorems -/

/-- Claim C1: for the empty password string, the estimate is well-defined
with `entropy = 0`, `meterPercent = 0`, `variety = 0`, and the suggestion
equal to the fixed prompt, for any oracle whose result on the empty string
has `guesses_log10 = 0` (zxcvbn reports one guess, hence magnitude 0, for
the empty password); the suggestion in particular is the fixed prompt and
never any oracle-derived text. -/
theorem scorePassword_empty (oracle : String → ZxcvbnResult)
    (h : (oracle "").guesses_log10 = 0) :
    (scorePassword oracle "").entropy = 0 ∧
    (scorePassword oracle "").meterPercent = 0 ∧
    (scorePassword oracle "").variety = 0 ∧
    (scorePassword oracle "").suggestion = "Type a password to see how strong it is!" := by
  refine ⟨?_, ?_, rfl, rfl⟩
  · simp only [scorePassword, h]
    norm_num [jsRound]
  · simp only [scorePassword, h]
    norm_num [meterPercentFromGuessesLog10, clamp]

/-- Claim C1 witness: the conclusions at a concrete oracle. -/
theorem scorePassword_empty_witness :
    (scorePassword zeroOracle "").entropy = 0 ∧
    (scorePassword zeroOracle "").meterPercent = 0 ∧
    (scorePassword zeroOracle "").variety = 0 ∧
    (scorePassword zeroOracle "").suggestion = "Type a password to see how strong it is!" :=
  scorePassword_empty zeroOracle rfl

/-- Claim C2: the meter-percentage map is monotonically non-decreasing in
`guessesLog10`, sends the window floor 2 to 0, and sends the window
ceiling 18 to 100. (The App.tsx function takes no `hasInput` flag; it
behaves this way on every input.) -/
theorem meterPercent_monotone_window :
    (∀ g1 g2 : ℚ, g1 ≤ g2 →
      meterPercentFromGuessesLog10 g1 ≤ meterPercentFromGuessesLog10 g2) ∧
    meterPercentFromGuessesLog10 2 = 0 ∧
    meterPercentFromGuessesLog10 18 = 100 := by
  refine ⟨?_, ?_, ?_⟩
  · intro g1 g2 hg
    simp only [meterPercentFromGuessesLog10, clamp]
    apply easeOutScaled_mono
    · exact min_le_min (max_le_max (by linarith) le_rfl) le_rfl
    · exact min_le_right _ _
  · norm_num [meterPercentFromGuessesLog10, clamp]
  · norm_num [meterPercentFromGuessesLog10, clamp]

/-- Claim C2 witness: monotonicity applied at 3 ≤ 5, and the endpoint
values. -/
theorem meterPercent_monotone_window_witness :
    meterPercentFromGuessesLog10 3 ≤ meterPercentFromGuessesLog10 5 ∧
    meterPercentFromGuessesLog10 2 = 0 ∧
    meterPercentFromGuessesLog10 18 = 100 :=
  ⟨meterPercent_monotone_window.1 3 5 (by norm_num),
   meterPercent_monotone_window.2.1, meterPercent_monotone_window.2.2⟩

/-- Claim C3 counterexample: at `guessesLog10 = 3` the meter percentage is
775/64, which is no integer — the code returns `eased * 100` directly and
performs no rounding. -/
theorem meterPercent_not_integer_cex :
    ¬ ∃ z : Int, meterPercentFromGuessesLog10 3 = (z : ℚ) := by
  rintro ⟨z, hz⟩
  have h3 : meterPercentFromGuessesLog10 3 = 775 / 64 := by
    norm_num [meterPercentFromGuessesLog10, clamp]
  rw [h3] at hz
  have h4 : (775 : ℚ) = (z : ℚ) * 64 := by
    field_simp at hz
    linarith
  have h5 : (775 : Int) = z * 64 := by exact_mod_cast h4
  omega

/-- Claim C3 amended: for every input `guessesLog10` the meter-percentage
function returns a value in [0,100] (the clamp of `t` bounds the eased
value); the value is not rounded to an integer. -/
theorem meterPercent_range (g : ℚ) :
    0 ≤ meterPercentFromGuessesLog10 g ∧ meterPercentFromGuessesLog10 g ≤ 100 := by
  simp only [meterPercentFromGuessesLog10, clamp]
  have h0 : 0 ≤ min (max ((g - 2) / (18 - 2)) 0) 1 :=
    le_min (le_max_right _ _) (by norm_num)
  have h1 : min (max ((g - 2) / (18 - 2)) 0) 1 ≤ 1 := min_le_right _ _
  constructor
  · nlinarith [mul_nonneg h0 (by linarith : (0:ℚ) ≤ 2 - min (max ((g - 2) / (18 - 2)) 0) 1)]
  · nlinarith [sq_nonneg (1 - min (max ((g - 2) / (18 - 2)) 0) 1)]

/-- Claim C4: for every non-empty password, the entropy field equals the
oracle's `guessesLog10` times the code's log₂ 10 constant, rounded half
away from zero, floored at 0, and is hence a non-negative integer. (The
code uses JS `Math.round`, half toward +∞, which agrees with half away
from zero on the oracle's non-negative magnitudes.) -/
theorem entropy_eq_round (oracle : String → ZxcvbnResult) (p : String)
    (_hp : p ≠ "") (hg : 0 ≤ (oracle p).guesses_log10) :
    (scorePassword oracle p).entropy
      = max 0 (roundHalfAwayFromZero ((oracle p).guesses_log10 * LOG2_10)) ∧
    0 ≤ (scorePassword oracle p).entropy := by
  have hq : 0 ≤ (oracle p).guesses_log10 * LOG2_10 :=
    mul_nonneg hg (by norm_num [LOG2_10])
  have hr : roundHalfAwayFromZero ((oracle p).guesses_log10 * LOG2_10)
      = jsRound ((oracle p).guesses_log10 * LOG2_10) := by
    rw [roundHalfAwayFromZero, if_pos hq]; rfl
  constructor
  · simp [scorePassword, hr]
  · simp only [scorePassword]
    exact le_max_left 0 _

/-- Claim C4 witness: the conclusions at a concrete oracle with
`guesses_log10 = 3` and the non-empty password "abc". -/
theorem entropy_eq_round_witness :
    (scorePassword cOracle "abc").entropy
      = max 0 (roundHalfAwayFromZero ((cOracle "abc").guesses_log10 * LOG2_10)) ∧
    0 ≤ (scorePassword cOracle "abc").entropy :=
  entropy_eq_round cOracle "abc" (by decide) (by norm_num [cOracle])

/-- Claim C5 counterexample: with an empty warning and a present but empty
first suggestion, the code falls through to the fixed fallback instead of
using the first entry of the suggestions as the claim's priority states. -/
theorem suggestion_priority_cex :
    (scorePassword cexOracle "x").suggestion
      ≠ specSuggestionPriority (cexOracle "x").feedback := by
  decide

/-- Claim C5 amended: for every password the suggestion is the fixed
prompt when the password is empty, else the oracle's warning if non-empty,
else the first entry of the suggestions if present *and non-empty*, else
the fixed fallback "Nice job! This looks strong." -/
theorem suggestion_priority (oracle : String → ZxcvbnResult) (p : String) :
    (scorePassword oracle p).suggestion =
      if p.length = 0 then "Type a password to see how strong it is!"
      else amendedSuggestionPriority (oracle p).feedback := by
  by_cases hp : p.length = 0
  · simp [scorePassword, hp]
  · rcases hfb : (oracle p).feedback.suggestions with _ | ⟨s, rest⟩ <;>
      by_cases hw : (oracle p).feedback.warning = "" <;>
      simp [scorePassword, hp, hfb, hw, jsOrStr, jsOrOpt, amendedSuggestionPriority]

/-- Claim C6: evaluation of `formatDuration` at the specified inputs and
at the failing input. One hundred years of seconds is divided by the extra
`[100, 'year']` rung of the unit ladder and mislabelled "1 year", where
the claim's ladder (60, 60, 24, 365) stops at year and yields
"100 years". -/
theorem formatDuration_eval :
    formatDuration (.finite 1) = "1 second" ∧
    formatDuration (.finite 120) = "2 minutes" ∧
    formatDuration (.finite 0) = "almost instantly" ∧
    formatDuration (.finite (-5)) = "almost instantly" ∧
    formatDuration .posInf = "almost instantly" ∧
    formatDuration (.finite 3153600000) = "1 year" := by
  refine ⟨?_, ?_, ?_, ?_, rfl, ?_⟩
  · norm_num [formatDuration, durationLoop, durationUnits, jsRound, showRat]
    decide
  · norm_num [formatDuration, durationLoop, durationUnits, jsRound, showRat]
    decide
  · norm_num [formatDuration]
  · norm_num [formatDuration]
  · norm_num [formatDuration, durationLoop, durationUnits, jsRound, showRat]
    decide

/-- Claim C7: for every password, the variety count is in [0,4] (it is a
natural number, so non-negativity is by type) and equals the number of
distinct satisfied character classes among has-lowercase, has-uppercase,
has-digit, and has-other, each contributing at most 1. -/
theorem variety_counts_classes (p : List Char) :
    variety p ≤ 4 ∧
    variety p
      = (if testLower p then 1 else 0) + (if testUpper p then 1 else 0)
        + (if testDigit p then 1 else 0) + (if testOther p then 1 else 0) := by
  rcases h1 : testLower p with _ | _ <;>
    rcases h2 : testUpper p with _ | _ <;>
    rcases h3 : testDigit p with _ | _ <;>
    rcases h4 : testOther p with _ | _ <;>
    simp [variety, varietyTests, List.filter, h1, h2, h3, h4]

/-- Claim C8: the tier classifier is total; score 0 maps to the first
(weakest) entry of the 5-tier table, score 4 to the last (strongest), and
any score with no exact match in the table maps to the weakest tier. -/
theorem strengthFromScore_total :
    strengthFromScore 0 = LEVELS.headI ∧
    strengthFromScore 4 = LEVELS.getLastD LEVELS.headI ∧
    ∀ s : Int, s ≠ 0 → s ≠ 1 → s ≠ 2 → s ≠ 3 → s ≠ 4 →
      strengthFromScore s = LEVELS.headI := by
  refine ⟨rfl, rfl, ?_⟩
  intro s h0 h1 h2 h3 h4
  unfold strengthFromScore
  have hnone : LEVELS.find? (fun level => level.score == s) = none := by
    rw [List.find?_eq_none]
    intro x hx
    fin_cases hx <;> simp [LEVELS, beq_iff_eq] <;> omega
  rw [hnone]
  rfl

/-- Claim C8 witness: the out-of-range score 7 maps to the weakest tier. -/
theorem strengthFromScore_total_witness :
    strengthFromScore 7 = LEVELS.headI :=
  strengthFromScore_total.2.2 7 (by decide) (by decide) (by decide) (by decide) (by decide)

/-- Claim C9: `varietyLabel` is total over the integers, maps 1–4 to the
four fixed labels, 0 to "no variety yet", and any out-of-range input to
the 0 case. -/
theorem varietyLabel_total :
    varietyLabel 1 = "just one type" ∧
    varietyLabel 2 = "two types" ∧
    varietyLabel 3 = "three types" ∧
    varietyLabel 4 = "four types" ∧
    varietyLabel 0 = "no variety yet" ∧
    ∀ v : Int, (v < 0 ∨ 4 < v) → varietyLabel v = "no variety yet" := by
  refine ⟨rfl, rfl, rfl, rfl, rfl, ?_⟩
  intro v hv
  unfold varietyLabel jsIndex
  rcases hv with hv | hv
  · rw [if_neg (by omega)]
    rfl
  · rw [if_pos (by omega)]
    have hlen : varietyMap.length ≤ (v - 1).toNat := by
      simp only [varietyMap, List.length_cons, List.length_nil]
      omega
    rw [List.getElem?_eq_none hlen]
    rfl

/-- Claim C9 witness: the out-of-range input 7 is treated as the 0 case. -/
theorem varietyLabel_total_witness :
    varietyLabel 7 = "no variety yet" :=
  varietyLabel_total.2.2.2.2.2 7 (Or.inr (by decide))

/-- Claim C10: appending a character to a password never decreases its
variety count, because each of the four class tests is monotone under
string extension. -/
theorem variety_append_mono (p : List Char) (c : Char) :
    variety p ≤ variety (p ++ [c]) := by
  refine filter_length_mono varietyTests p (p ++ [c]) ?_
  intro t ht h
  fin_cases ht <;>
    simp only [testLower, testUpper, testDigit, testOther, List.any_append,
      Bool.or_eq_true] at h ⊢ <;>
    exact Or.inl h

end PasswordMeter
